import Mathlib

/-!
Verification of `po/config_to_pot.py` from os-installer-config.

The script loads a YAML configuration document, walks its known optional
sections (`welcome_page`, `desktop`, `additional_software`,
`additional_features`) and writes a gettext `.pot` template file: a fixed
header followed by one `msgid`/`msgstr` entry per discovered string.

Shallow embedding conventions:
- YAML values are modelled by the inductive `Yaml` (scalars `null`, `bool`,
  `int`, `str`, plus `seq` and `map`).  Mappings are association lists with
  `String` keys, modelling Python dicts (insertion order preserved, keys
  unique; first-match lookup).  YAML floats and non-string mapping keys do
  not occur in these configuration files and are not modelled.
- Python's dynamically-typed operations `key in value`, `value[key]` and
  `for x in value` are modelled by `Yaml.pymem`, `Yaml.pyget` and
  `Yaml.pyiter`; a `TypeError`/`KeyError` is `Except.error ()`.
- The open output file and standard output are modelled by the state `St`:
  `pot` is the list of chunks written to the `.pot` file (in order, one per
  `write` call) and `out` the list of lines printed to stdout.
- Each traversal routine returns `Except St St`; `Except.error s` means a
  Python exception escaped with the writes performed so far recorded in `s`
  (the blanket `except:` in the main script catches it).
-/

set_option autoImplicit false

/-- A YAML value as produced by `yaml.load` in `config_to_pot.py`. -/
inductive Yaml where
  | null
  | bool (b : Bool)
  | int (n : Int)
  | str (s : String)
  | seq (items : List Yaml)
  | map (fields : List (String × Yaml))

/-- First-match association-list lookup; models Python dict lookup
(dict keys are unique, so first match is the only match). -/
def lookupKey (k : String) : List (String × Yaml) → Option Yaml
  | [] => none
  | (k2, v) :: rest => if k2 = k then some v else lookupKey k rest

/-- Prefix test: `isPrefixChars n h` is true iff `n` is a prefix of `h`. -/
def isPrefixChars : List Char → List Char → Bool
  | [], _ => true
  | _ :: _, [] => false
  | a :: as, b :: bs => a = b && isPrefixChars as bs

/-- Substring test: `hasSub h n` is true iff `n` occurs contiguously in
`h`; models Python substring membership `n in h` for strings. -/
def hasSub : List Char → List Char → Bool
  | [], n => isPrefixChars n []
  | h :: t, n => isPrefixChars n (h :: t) || hasSub t n

/-- Python `x == k` for a string literal `k`: true only for an equal
string (values of other types never equal a string). -/
def pyEqStr (x : Yaml) (k : String) : Bool :=
  match x with
  | .str s => s = k
  | _ => false

/-- Python `k in v` (`TypeError` on scalars: not iterable). -/
def Yaml.pymem (v : Yaml) (k : String) : Except Unit Bool :=
  match v with
  | .map es => .ok (lookupKey k es).isSome
  | .seq xs => .ok (xs.any (fun x => pyEqStr x k))
  | .str s => .ok (hasSub s.data k.data)
  | _ => .error ()

/-- Python `v[k]` for a string key `k` (`KeyError` when a dict lacks the key;
`TypeError` on every non-dict value). -/
def Yaml.pyget (v : Yaml) (k : String) : Except Unit Yaml :=
  match v with
  | .map es =>
    match lookupKey k es with
    | some w => .ok w
    | none => .error ()
  | _ => .error ()

/-- Python `for x in v`: a list yields its items, a string its characters
(as one-character strings), a dict its keys; scalars raise `TypeError`. -/
def Yaml.pyiter : Yaml → Except Unit (List Yaml)
  | .seq xs => .ok xs
  | .str s => .ok (s.data.map (fun c => .str (String.mk [c])))
  | .map es => .ok (es.map (fun p => .str p.fst))
  | _ => .error ()

/-- Mapping lookup as a partial function (used in specifications):
`some` exactly when the value is a mapping containing the key. -/
def Yaml.find? (v : Yaml) (k : String) : Option Yaml :=
  match v with
  | .map es => lookupKey k es
  | _ => none

/-- The single-quote character, as a string. -/
def squote : String := String.mk [Char.ofNat 39]

/-- Python `repr` of a string: single-quoted, or double-quoted when the
string contains a single quote but no double quote.  (Character escaping,
which Python would apply to strings containing both quote kinds or control
characters, is not modelled; the diagnostics the claims are about never
hinge on it.) -/
def pyReprString (s : String) : String :=
  if hasSub s.data squote.data && !hasSub s.data "\"".data then
    "\"" ++ s ++ "\""
  else
    squote ++ s ++ squote

mutual

/-- Python `repr` of a YAML value. -/
def pyRepr : Yaml → String
  | .null => "None"
  | .bool true => "True"
  | .bool false => "False"
  | .int n => toString n
  | .str s => pyReprString s
  | .seq xs => "[" ++ pyReprItems xs ++ "]"
  | .map es => "\x7b" ++ pyReprFields es ++ "\x7d"

/-- Comma-separated `repr`s of list items. -/
def pyReprItems : List Yaml → String
  | [] => ""
  | [x] => pyRepr x
  | x :: y :: rest => pyRepr x ++ ", " ++ pyReprItems (y :: rest)

/-- Comma-separated `'key': repr(value)` renderings of dict fields. -/
def pyReprFields : List (String × Yaml) → String
  | [] => ""
  | [(k, v)] => pyReprString k ++ ": " ++ pyRepr v
  | (k, v) :: p :: rest => pyReprString k ++ ": " ++ pyRepr v ++ ", " ++ pyReprFields (p :: rest)

end

/-- Python `str`/f-string conversion of a YAML value: a string formats as
itself, everything else as its `repr`. -/
def pyFormat : Yaml → String
  | .str s => s
  | v => pyRepr v

/-- The run-time state of the script's I/O: `pot` is the sequence of chunks
written to the open `.pot` file (one element per `write` call), `out` the
lines printed to standard output. -/
structure St where
  pot : List String
  out : List String
deriving DecidableEq

/-- The chunk written by one `add_to_pot` call: the f-string
`msgid "{text}"\nmsgstr ""\n\n` with the value formatted by `str()`. -/
def potEntry (text : Yaml) : String :=
  "msgid \"" ++ pyFormat text ++ "\"\nmsgstr \"\"\n\n"

/-- Source `add_to_pot` (lines 21-22): writes one template entry to the
pot file. -/
def add_to_pot (text : Yaml) (s : St) : St :=
  { s with pot := s.pot ++ [potEntry text] }

/-- Lines 27-30 / 44-47: emit the entry's `name` if present, else print an
invalid-entry diagnostic (`label` is `"Invalid choice: "` resp.
`"Invalid desktop: "`). -/
def step_name (label : String) (entry : Yaml) (s : St) : Except St St :=
  match entry.pymem "name" with
  | .error _ => .error s
  | .ok true =>
    match entry.pyget "name" with
    | .error _ => .error s
    | .ok v => .ok (add_to_pot v s)
  | .ok false => .ok { s with out := s.out ++ [label ++ pyFormat entry] }

/-- Lines 31-32 / 48-49: emit the entry's `description` if present. -/
def step_desc (entry : Yaml) (s : St) : Except St St :=
  match entry.pymem "description" with
  | .error _ => .error s
  | .ok true =>
    match entry.pyget "description" with
    | .error _ => .error s
    | .ok v => .ok (add_to_pot v s)
  | .ok false => .ok s

/-- Lines 36-39, loop body: emit the option's `name` if present; if neither
`name` nor `option` is present, print an invalid-option diagnostic. -/
def handle_option (option : Yaml) (s : St) : Except St St :=
  match option.pymem "name" with
  | .error _ => .error s
  | .ok true =>
    match option.pyget "name" with
    | .error _ => .error s
    | .ok v => .ok (add_to_pot v s)
  | .ok false =>
    match option.pymem "option" with
    | .error _ => .error s
    | .ok true => .ok s
    | .ok false => .ok { s with out := s.out ++ ["Invalid option: " ++ pyFormat option] }

/-- Lines 35-39: the `for option in options` loop. -/
def handle_options : List Yaml → St → Except St St
  | [], s => .ok s
  | o :: rest, s =>
    match handle_option o s with
    | .error s2 => .error s2
    | .ok s2 => handle_options rest s2

/-- Lines 33-39: process the choice's `options` sequence if present. -/
def step_options (choice : Yaml) (s : St) : Except St St :=
  match choice.pymem "options" with
  | .error _ => .error s
  | .ok false => .ok s
  | .ok true =>
    match choice.pyget "options" with
    | .error _ => .error s
    | .ok options =>
      match options.pyiter with
      | .error _ => .error s
      | .ok os => handle_options os s

/-- Lines 26-39, loop body: one choice entry (name, description, options). -/
def handle_choice (choice : Yaml) (s : St) : Except St St :=
  match step_name "Invalid choice: " choice s with
  | .error s1 => .error s1
  | .ok s1 =>
    match step_desc choice s1 with
    | .error s2 => .error s2
    | .ok s2 => step_options choice s2

/-- The `for choice in choices` loop of `handle_choices`. -/
def handle_choice_list : List Yaml → St → Except St St
  | [], s => .ok s
  | c :: rest, s =>
    match handle_choice c s with
    | .error s2 => .error s2
    | .ok s2 => handle_choice_list rest s2

/-- Source `handle_choices` (lines 25-39). -/
def handle_choices (choices : Yaml) (s : St) : Except St St :=
  match choices.pyiter with
  | .error _ => .error s
  | .ok cs => handle_choice_list cs s

/-- Lines 43-49, loop body: one desktop entry (name, description). -/
def handle_desktop_entry (desktop : Yaml) (s : St) : Except St St :=
  match step_name "Invalid desktop: " desktop s with
  | .error s1 => .error s1
  | .ok s1 => step_desc desktop s1

/-- The `for desktop in desktops` loop of `handle_desktop`. -/
def handle_desktop_list : List Yaml → St → Except St St
  | [], s => .ok s
  | d :: rest, s =>
    match handle_desktop_entry d s with
    | .error s2 => .error s2
    | .ok s2 => handle_desktop_list rest s2

/-- Source `handle_desktop` (lines 42-49). -/
def handle_desktop (desktops : Yaml) (s : St) : Except St St :=
  match desktops.pyiter with
  | .error _ => .error s
  | .ok ds => handle_desktop_list ds s

/-- Lines 53-56: the `welcome_page` section of `handle_config`. -/
def step_welcome (config : Yaml) (s : St) : Except St St :=
  match config.pymem "welcome_page" with
  | .error _ => .error s
  | .ok false => .ok s
  | .ok true =>
    match config.pyget "welcome_page" with
    | .error _ => .error s
    | .ok welcome_page =>
      match welcome_page.pymem "text" with
      | .error _ => .error s
      | .ok false => .ok s
      | .ok true =>
        match welcome_page.pyget "text" with
        | .error _ => .error s
        | .ok v => .ok (add_to_pot v s)

/-- Lines 58-59: the `desktop` section of `handle_config`. -/
def step_desktop (config : Yaml) (s : St) : Except St St :=
  match config.pymem "desktop" with
  | .error _ => .error s
  | .ok false => .ok s
  | .ok true =>
    match config.pyget "desktop" with
    | .error _ => .error s
    | .ok v => handle_desktop v s

/-- Lines 61-65: one `additional_software` / `additional_features` section
of `handle_config`. -/
def step_choices_section (key : String) (config : Yaml) (s : St) : Except St St :=
  match config.pymem key with
  | .error _ => .error s
  | .ok false => .ok s
  | .ok true =>
    match config.pyget key with
    | .error _ => .error s
    | .ok v => handle_choices v s

/-- Source `handle_config` (lines 52-65). -/
def handle_config (config : Yaml) (s : St) : Except St St :=
  match step_welcome config s with
  | .error s1 => .error s1
  | .ok s1 =>
    match step_desktop config s1 with
    | .error s2 => .error s2
    | .ok s2 =>
      match step_choices_section "additional_software" config s2 with
      | .error s3 => .error s3
      | .ok s3 => step_choices_section "additional_features" config s3

/-!
## The main script (lines 9-18 and 90-103)

Argument parsing, filesystem access and the YAML parser are external to the
traversal code; they are modelled as follows.

- `argparse` with one required positional argument: with no argument (or
  with extra arguments) the parser itself prints usage to stderr and exits
  with status 2.  The `if not args.config_path` block at lines 16-18 is
  unreachable: `argparse` rejects a missing required positional before it,
  and `Path` objects are always truthy.  Option-like arguments (`-h`) are
  outside the model.
- Filesystem paths are lists of components.  `toPath` splits on `/` and
  drops empty and `.` components as `pathlib.Path` does; `Path.parent` is
  `List.dropLast`.
- The filesystem `FS` maps paths to file contents and records which
  directories exist.  `yaml.load` is abstracted as a parameter
  `parse : String → Option Yaml` of the run (`none` models a parse error).
-/

/-- Splitting a character list on `/`, accumulating the current component
in reverse. -/
def splitSlash : List Char → List Char → List String
  | [], cur => [String.mk cur.reverse]
  | c :: rest, cur =>
    if c = '/' then String.mk cur.reverse :: splitSlash rest []
    else splitSlash rest (c :: cur)

/-- Components of a filesystem path, as `pathlib.Path` normalises them:
split on `/`, drop empty and `.` components. -/
def toPath (s : String) : List String :=
  (splitSlash s.data []).filter (fun c => c != "" && c != ".")

/-- A filesystem: files (path to contents, first match wins) and the set of
existing directories. -/
structure FS where
  files : List (List String × String)
  dirs : List (List String)
deriving DecidableEq

/-- First-match lookup in a file table. -/
def fileAtList (p : List String) : List (List String × String) → Option String
  | [] => none
  | (q, d) :: rest => if q = p then some d else fileAtList p rest

/-- Contents of the file at `p`, if present. -/
def fileAt (fs : FS) (p : List String) : Option String :=
  fileAtList p fs.files

/-- Replace the contents of the file at `p` (first occurrence), or create
the file; models `open(p, 'w')` having truncated and rewritten it. -/
def setFileList (p : List String) (c : String) :
    List (List String × String) → List (List String × String)
  | [] => [(p, c)]
  | (q, d) :: rest =>
    if q = p then (p, c) :: rest else (q, d) :: setFileList p c rest

/-- Update of `FS` by writing file `p` with contents `c`. -/
def setFile (fs : FS) (p : List String) (c : String) : FS :=
  { fs with files := setFileList p c fs.files }

/-- Update of `FS` by `p.mkdir(exist_ok=True)`. -/
def addDir (fs : FS) (p : List String) : FS :=
  if p ∈ fs.dirs then fs else { fs with dirs := fs.dirs ++ [p] }

/-- Concatenation of the chunks written to a file, in order; the file's
final contents. -/
def concatChunks : List String → String
  | [] => ""
  | c :: rest => c ++ concatChunks rest

/-- The fixed header block of `write_pot_header` (lines 68-87), written as
one chunk.  Inside it, `\n` stands for a newline and `\\n` for the
two-character sequence backslash-`n` that the `.pot` format uses. -/
def pot_header : String :=
  "# SOME DESCRIPTIVE TITLE.\n" ++
  "# Copyright (C) YEAR THE PACKAGE" ++ squote ++ "S COPYRIGHT HOLDER\n" ++
  "# This file is distributed under the same license as the os-installer package.\n" ++
  "# FIRST AUTHOR <EMAIL@ADDRESS>, YEAR.\n" ++
  "#\n" ++
  "msgid \"\"\n" ++
  "msgstr \"\"\n" ++
  "\"Project-Id-Version: os-installer-config\\n\"\n" ++
  "\"Report-Msgid-Bugs-To: \\n\"\n" ++
  "\"POT-Creation-Date: 2023-08-18 03:39+0100\\n\"\n" ++
  "\"PO-Revision-Date: YEAR-MO-DA HO:MI+ZONE\\n\"\n" ++
  "\"Last-Translator: FULL NAME <EMAIL@ADDRESS>\\n\"\n" ++
  "\"Language-Team: LANGUAGE <LL@li.org>\\n\"\n" ++
  "\"Language: \\n\"\n" ++
  "\"MIME-Version: 1.0\\n\"\n" ++
  "\"Content-Type: text/plain; charset=UTF-8\\n\"\n" ++
  "\"Content-Transfer-Encoding: 8bit\\n\"\n\n"

/-- Source `write_pot_header` (lines 68-87): one `write` of the fixed
header. -/
def write_pot_header (s : St) : St :=
  { s with pot := s.pot ++ [pot_header] }

/-- The fixed fatal diagnostic of the blanket `except:` (line 102). -/
def potDiag : String := "Could not find or parse provided config"

/-- Outcome of one invocation: exit status, stdout lines, whether usage was
printed (to stderr, by `argparse`), the `.pot` file opened for writing with
the chunks written to it (`none` when the run failed before opening it),
and the resulting filesystem. -/
structure RunResult where
  exitCode : Nat
  out : List String
  usageShown : Bool
  written : Option (List String × List String)
  fs : FS

/-- One invocation of the script (lines 9-18 and 90-103) with argument
vector `argv` on filesystem `fs`, with `yaml.load` abstracted as `parse`.
On a traversal exception the partially written `.pot` file remains (the
`with` block has already truncated it), and the blanket `except:` prints
the fixed diagnostic and exits 1. -/
def run (parse : String → Option Yaml) (argv : List String) (fs : FS) : RunResult :=
  match argv with
  | [cfg] =>
    let path := toPath cfg
    match fileAt fs path with
    | none => ⟨1, [potDiag], false, none, fs⟩
    | some content =>
      match parse content with
      | none => ⟨1, [potDiag], false, none, fs⟩
      | some config =>
        let poPath := path.dropLast ++ ["po"]
        let potPath := poPath ++ ["config.pot"]
        let fs1 := addDir fs poPath
        match handle_config config (write_pot_header ⟨[], []⟩) with
        | .ok s2 =>
          ⟨0, s2.out, false, some (potPath, s2.pot), setFile fs1 potPath (concatChunks s2.pot)⟩
        | .error s2 =>
          ⟨1, s2.out ++ [potDiag], false, some (potPath, s2.pot),
            setFile fs1 potPath (concatChunks s2.pot)⟩
  | _ => ⟨2, [], true, none, fs⟩

/-!
## Specification-side definitions

`specEntries` renders the order of emitted entries as §3/§4 of the
specification word it: welcome text first, then desktop entries (name then
description, in sequence order), then `additional_software` choices (name,
description, then option names, in nested sequence order), then
`additional_features` choices likewise.  It is compared with the traversal
code for claim C1.
-/

/-- Option names of a choice's `options` sequence, in order, as the
specification words it. -/
def specOptionEntries (os : List Yaml) : List Yaml :=
  os.filterMap (fun o => o.find? "name")

/-- Option names emitted for one choice: those of its `options` sequence,
when present. -/
def specChoiceOptions (c : Yaml) : List Yaml :=
  match c.find? "options" with
  | some (.seq os) => specOptionEntries os
  | _ => []

/-- Entries of one choice as the specification words it: name,
description, then its option names. -/
def specChoiceEntries (c : Yaml) : List Yaml :=
  (c.find? "name").toList ++ (c.find? "description").toList ++ specChoiceOptions c

/-- Entries of one desktop entry as the specification words it: name then
description. -/
def specDesktopEntries (d : Yaml) : List Yaml :=
  (d.find? "name").toList ++ (d.find? "description").toList

/-- The welcome entry: the `welcome_page` text, when present. -/
def welcomeEntries (config : Yaml) : List Yaml :=
  match config.find? "welcome_page" with
  | some w => (w.find? "text").toList
  | none => []

/-- Entries of the `desktop` section, in sequence order. -/
def desktopSectionEntries (config : Yaml) : List Yaml :=
  match config.find? "desktop" with
  | some (.seq ds) => ds.flatMap specDesktopEntries
  | _ => []

/-- Entries of one choice section (`additional_software` or
`additional_features`), in nested sequence order. -/
def sectionChoiceEntries (key : String) (config : Yaml) : List Yaml :=
  match config.find? key with
  | some (.seq cs) => cs.flatMap specChoiceEntries
  | _ => []

/-- All entries of a configuration document, in the fixed order the
specification asserts: welcome text, desktop entries, additional-software
choices, additional-feature choices. -/
def specEntries (config : Yaml) : List Yaml :=
  welcomeEntries config ++ desktopSectionEntries config ++
  sectionChoiceEntries "additional_software" config ++
  sectionChoiceEntries "additional_features" config

/-!
Diagnostic lines printed during one traversal, mirroring the advisory
messages of the handlers; used to characterise the handlers' stdout.
-/

/-- The advisory printed by the name check of a desktop or choice entry:
nothing when `name` is present, one line otherwise. -/
def nameDiag (label : String) (e : Yaml) : List String :=
  match e.find? "name" with
  | some _ => []
  | none => [label ++ pyFormat e]

/-- The advisory printed for one option entry: one line exactly when
neither `name` nor `option` is present. -/
def optionDiag (o : Yaml) : List String :=
  match o.find? "name" with
  | some _ => []
  | none =>
    match o.find? "option" with
    | some _ => []
    | none => ["Invalid option: " ++ pyFormat o]

/-- Advisories printed while traversing one choice's `options`. -/
def choiceOptionDiags (c : Yaml) : List String :=
  match c.find? "options" with
  | some (.seq os) => os.flatMap optionDiag
  | _ => []

/-- All advisories printed while traversing one choice entry. -/
def choiceDiags (c : Yaml) : List String :=
  nameDiag "Invalid choice: " c ++ choiceOptionDiags c

/-- Advisories printed by the `desktop` section. -/
def desktopSectionDiags (config : Yaml) : List String :=
  match config.find? "desktop" with
  | some (.seq ds) => ds.flatMap (nameDiag "Invalid desktop: ")
  | _ => []

/-- Advisories printed by one choice section. -/
def sectionChoiceDiags (key : String) (config : Yaml) : List String :=
  match config.find? key with
  | some (.seq cs) => cs.flatMap choiceDiags
  | _ => []

/-- All advisories printed while traversing a configuration document. -/
def configDiags (config : Yaml) : List String :=
  desktopSectionDiags config ++
  sectionChoiceDiags "additional_software" config ++
  sectionChoiceDiags "additional_features" config

/-!
## Well-formedness

The claims about entry order speak of configuration documents of the
documented shape: mappings with the sections being sequences of mappings.
-/

/-- Whether a YAML value is a mapping. -/
def Yaml.isMap : Yaml → Bool
  | .map _ => true
  | _ => false

/-- An `options` value of the documented shape: a sequence of mappings. -/
def wfOptions : Yaml → Bool
  | .seq os => os.all Yaml.isMap
  | _ => false

/-- A choice entry of the documented shape: a mapping whose `options`
value, if present, is a sequence of mappings. -/
def wfChoice (c : Yaml) : Bool :=
  c.isMap &&
  (match c.find? "options" with
   | some o => wfOptions o
   | none => true)

/-- A `desktop` section of the documented shape: a sequence of mappings. -/
def wfDesktopSeq : Yaml → Bool
  | .seq ds => ds.all Yaml.isMap
  | _ => false

/-- A choice section of the documented shape: a sequence of well-formed
choice entries. -/
def wfChoiceSeq : Yaml → Bool
  | .seq cs => cs.all wfChoice
  | _ => false

/-- A configuration document of the documented shape. -/
def wfConfig (config : Yaml) : Bool :=
  config.isMap &&
  (match config.find? "welcome_page" with
   | some w => w.isMap
   | none => true) &&
  (match config.find? "desktop" with
   | some d => wfDesktopSeq d
   | none => true) &&
  (match config.find? "additional_software" with
   | some a => wfChoiceSeq a
   | none => true) &&
  (match config.find? "additional_features" with
   | some a => wfChoiceSeq a
   | none => true)

/-!
## Characterisation of the traversal on well-formed documents
-/

theorem isMap_iff (o : Yaml) : o.isMap = true ↔ ∃ es, o = .map es := by
  cases o <;> simp [Yaml.isMap]

theorem specOptionEntries_cons (o : Yaml) (rest : List Yaml) :
    specOptionEntries (o :: rest) =
      (o.find? "name").toList ++ specOptionEntries rest := by
  cases h : o.find? "name" <;>
    simp [specOptionEntries, List.filterMap_cons, h]

/-- One option entry of the documented shape: its name entry is emitted
when present, and the invalid-option advisory exactly when neither `name`
nor `option` is present. -/
theorem handle_option_wf (o : Yaml) (h : o.isMap = true) (s : St) :
    handle_option o s =
      .ok ⟨s.pot ++ ((o.find? "name").toList.map potEntry),
           s.out ++ optionDiag o⟩ := by
  obtain ⟨es, rfl⟩ := (isMap_iff o).mp h
  cases hk : lookupKey "name" es with
  | some v =>
    simp [handle_option, Yaml.pymem, Yaml.pyget, Yaml.find?, optionDiag, hk,
      add_to_pot]
  | none =>
    cases hk2 : lookupKey "option" es with
    | some w =>
      simp [handle_option, Yaml.pymem, Yaml.pyget, Yaml.find?, optionDiag,
        hk, hk2]
    | none =>
      simp [handle_option, Yaml.pymem, Yaml.pyget, Yaml.find?, optionDiag,
        hk, hk2]

theorem handle_options_wf (os : List Yaml) (h : os.all Yaml.isMap = true)
    (s : St) :
    handle_options os s =
      .ok ⟨s.pot ++ (specOptionEntries os).map potEntry,
           s.out ++ os.flatMap optionDiag⟩ := by
  induction os generalizing s with
  | nil => simp [handle_options, specOptionEntries]
  | cons o rest ih =>
    simp only [List.all_cons, Bool.and_eq_true] at h
    simp only [handle_options, handle_option_wf o h.1 s, ih h.2]
    simp [specOptionEntries_cons, List.append_assoc]

theorem step_name_wf (label : String) (e : Yaml) (h : e.isMap = true)
    (s : St) :
    step_name label e s =
      .ok ⟨s.pot ++ ((e.find? "name").toList.map potEntry),
           s.out ++ nameDiag label e⟩ := by
  obtain ⟨es, rfl⟩ := (isMap_iff e).mp h
  cases hk : lookupKey "name" es with
  | some v =>
    simp [step_name, Yaml.pymem, Yaml.pyget, Yaml.find?, nameDiag, hk,
      add_to_pot]
  | none =>
    simp [step_name, Yaml.pymem, Yaml.pyget, Yaml.find?, nameDiag, hk]

theorem step_desc_wf (e : Yaml) (h : e.isMap = true) (s : St) :
    step_desc e s =
      .ok ⟨s.pot ++ ((e.find? "description").toList.map potEntry), s.out⟩ := by
  obtain ⟨es, rfl⟩ := (isMap_iff e).mp h
  cases hk : lookupKey "description" es with
  | some v =>
    simp [step_desc, Yaml.pymem, Yaml.pyget, Yaml.find?, hk, add_to_pot]
  | none =>
    simp [step_desc, Yaml.pymem, Yaml.pyget, Yaml.find?, hk]

theorem step_options_wf (c : Yaml) (h : wfChoice c = true) (s : St) :
    step_options c s =
      .ok ⟨s.pot ++ ((specChoiceOptions c).map potEntry),
           s.out ++ choiceOptionDiags c⟩ := by
  simp only [wfChoice, Bool.and_eq_true] at h
  obtain ⟨es, rfl⟩ := (isMap_iff c).mp h.1
  have h2 := h.2
  simp only [Yaml.find?] at h2
  cases hk : lookupKey "options" es with
  | some v =>
    rw [hk] at h2
    cases v <;> simp [wfOptions] at h2
    case seq os =>
      have h3 : os.all Yaml.isMap = true := by simpa using h2
      simp [step_options, Yaml.pymem, Yaml.pyget, Yaml.pyiter, hk,
        handle_options_wf os h3 s, specChoiceOptions, choiceOptionDiags,
        Yaml.find?]
  | none =>
    simp [step_options, Yaml.pymem, Yaml.pyget, hk, specChoiceOptions,
      choiceOptionDiags, Yaml.find?]

theorem handle_choice_wf (c : Yaml) (h : wfChoice c = true) (s : St) :
    handle_choice c s =
      .ok ⟨s.pot ++ ((specChoiceEntries c).map potEntry),
           s.out ++ choiceDiags c⟩ := by
  have hm : c.isMap = true := by
    simp only [wfChoice, Bool.and_eq_true] at h; exact h.1
  simp only [handle_choice, step_name_wf "Invalid choice: " c hm s,
    step_desc_wf c hm, step_options_wf c h]
  simp [specChoiceEntries, choiceDiags, List.append_assoc]

theorem handle_choice_list_wf (cs : List Yaml) (h : cs.all wfChoice = true)
    (s : St) :
    handle_choice_list cs s =
      .ok ⟨s.pot ++ ((cs.flatMap specChoiceEntries).map potEntry),
           s.out ++ cs.flatMap choiceDiags⟩ := by
  induction cs generalizing s with
  | nil => simp [handle_choice_list]
  | cons c rest ih =>
    simp only [List.all_cons, Bool.and_eq_true] at h
    simp only [handle_choice_list, handle_choice_wf c h.1 s, ih h.2]
    simp [List.append_assoc]

theorem handle_choices_wf (cs : List Yaml) (h : cs.all wfChoice = true)
    (s : St) :
    handle_choices (.seq cs) s =
      .ok ⟨s.pot ++ ((cs.flatMap specChoiceEntries).map potEntry),
           s.out ++ cs.flatMap choiceDiags⟩ := by
  simp [handle_choices, Yaml.pyiter, handle_choice_list_wf cs h s]

theorem handle_desktop_entry_wf (d : Yaml) (h : d.isMap = true) (s : St) :
    handle_desktop_entry d s =
      .ok ⟨s.pot ++ ((specDesktopEntries d).map potEntry),
           s.out ++ nameDiag "Invalid desktop: " d⟩ := by
  simp only [handle_desktop_entry, step_name_wf "Invalid desktop: " d h s,
    step_desc_wf d h]
  simp [specDesktopEntries, List.append_assoc]

theorem handle_desktop_list_wf (ds : List Yaml)
    (h : ds.all Yaml.isMap = true) (s : St) :
    handle_desktop_list ds s =
      .ok ⟨s.pot ++ ((ds.flatMap specDesktopEntries).map potEntry),
           s.out ++ ds.flatMap (nameDiag "Invalid desktop: ")⟩ := by
  induction ds generalizing s with
  | nil => simp [handle_desktop_list]
  | cons d rest ih =>
    simp only [List.all_cons, Bool.and_eq_true] at h
    simp only [handle_desktop_list, handle_desktop_entry_wf d h.1 s, ih h.2]
    simp [List.append_assoc]

theorem handle_desktop_wf (ds : List Yaml) (h : ds.all Yaml.isMap = true)
    (s : St) :
    handle_desktop (.seq ds) s =
      .ok ⟨s.pot ++ ((ds.flatMap specDesktopEntries).map potEntry),
           s.out ++ ds.flatMap (nameDiag "Invalid desktop: ")⟩ := by
  simp [handle_desktop, Yaml.pyiter, handle_desktop_list_wf ds h s]

theorem step_welcome_wf (config : Yaml) (h1 : config.isMap = true)
    (h2 : (match config.find? "welcome_page" with
           | some w => w.isMap
           | none => true) = true) (s : St) :
    step_welcome config s =
      .ok ⟨s.pot ++ ((welcomeEntries config).map potEntry), s.out⟩ := by
  obtain ⟨es, rfl⟩ := (isMap_iff config).mp h1
  simp only [Yaml.find?] at h2
  cases hk : lookupKey "welcome_page" es with
  | none =>
    simp [step_welcome, Yaml.pymem, hk, welcomeEntries, Yaml.find?]
  | some w =>
    rw [hk] at h2
    obtain ⟨ws, rfl⟩ := (isMap_iff w).mp h2
    cases hk2 : lookupKey "text" ws with
    | none =>
      simp [step_welcome, Yaml.pymem, Yaml.pyget, hk, hk2, welcomeEntries,
        Yaml.find?]
    | some v =>
      simp [step_welcome, Yaml.pymem, Yaml.pyget, hk, hk2, welcomeEntries,
        Yaml.find?, add_to_pot]

theorem step_desktop_wf (config : Yaml) (h1 : config.isMap = true)
    (h2 : (match config.find? "desktop" with
           | some d => wfDesktopSeq d
           | none => true) = true) (s : St) :
    step_desktop config s =
      .ok ⟨s.pot ++ ((desktopSectionEntries config).map potEntry),
           s.out ++ desktopSectionDiags config⟩ := by
  obtain ⟨es, rfl⟩ := (isMap_iff config).mp h1
  simp only [Yaml.find?] at h2
  cases hk : lookupKey "desktop" es with
  | none =>
    simp [step_desktop, Yaml.pymem, hk, desktopSectionEntries,
      desktopSectionDiags, Yaml.find?]
  | some d =>
    rw [hk] at h2
    cases d <;> simp [wfDesktopSeq] at h2
    case seq ds =>
      have h3 : ds.all Yaml.isMap = true := by simpa using h2
      simp [step_desktop, Yaml.pymem, Yaml.pyget, hk,
        handle_desktop_wf ds h3 s, desktopSectionEntries,
        desktopSectionDiags, Yaml.find?]

theorem step_choices_section_wf (key : String) (config : Yaml)
    (h1 : config.isMap = true)
    (h2 : (match config.find? key with
           | some a => wfChoiceSeq a
           | none => true) = true) (s : St) :
    step_choices_section key config s =
      .ok ⟨s.pot ++ ((sectionChoiceEntries key config).map potEntry),
           s.out ++ sectionChoiceDiags key config⟩ := by
  obtain ⟨es, rfl⟩ := (isMap_iff config).mp h1
  simp only [Yaml.find?] at h2
  cases hk : lookupKey key es with
  | none =>
    simp [step_choices_section, Yaml.pymem, hk, sectionChoiceEntries,
      sectionChoiceDiags, Yaml.find?]
  | some a =>
    rw [hk] at h2
    cases a <;> simp [wfChoiceSeq] at h2
    case seq cs =>
      have h3 : cs.all wfChoice = true := by simpa using h2
      simp [step_choices_section, Yaml.pymem, Yaml.pyget, hk,
        handle_choices_wf cs h3 s, sectionChoiceEntries,
        sectionChoiceDiags, Yaml.find?]

/-- The full traversal on a document of the documented shape: it succeeds,
writes exactly the specification-ordered entries, and prints exactly the
advisories of the malformed entries. -/
theorem handle_config_wf (config : Yaml) (h : wfConfig config = true)
    (s : St) :
    handle_config config s =
      .ok ⟨s.pot ++ ((specEntries config).map potEntry),
           s.out ++ configDiags config⟩ := by
  simp only [wfConfig, Bool.and_eq_true] at h
  obtain ⟨⟨⟨⟨h1, hw⟩, hd⟩, hs⟩, hf⟩ := h
  simp only [handle_config, step_welcome_wf config h1 hw s,
    step_desktop_wf config h1 hd, step_choices_section_wf _ config h1 hs,
    step_choices_section_wf _ config h1 hf]
  simp [specEntries, configDiags, List.append_assoc]

/-!
## The append-only invariant of the pot file

Every chunk a traversal appends to the pot file is an `add_to_pot` entry:
the handlers never truncate, reorder or write anything else.  This holds
for every document, well-formed or not, and on both the success and the
exception path.
-/

/-- State `s2` extends state `s` by entry chunks only. -/
def StExt (s s2 : St) : Prop :=
  ∃ ext, s2.pot = s.pot ++ ext ∧ ∀ ch ∈ ext, ∃ v, ch = potEntry v

/-- The outcome of a traversal step extends `s` by entry chunks only,
whether it returned or raised. -/
def ExceptExt (s : St) : Except St St → Prop
  | .ok s2 => StExt s s2
  | .error s2 => StExt s s2

theorem StExt_refl (s : St) : StExt s s := ⟨[], by simp⟩

theorem StExt_trans {s1 s2 s3 : St} (h1 : StExt s1 s2) (h2 : StExt s2 s3) :
    StExt s1 s3 := by
  obtain ⟨e1, he1, hv1⟩ := h1
  obtain ⟨e2, he2, hv2⟩ := h2
  refine ⟨e1 ++ e2, by simp [he2, he1], ?_⟩
  intro ch hch
  rcases List.mem_append.mp hch with h | h
  · exact hv1 ch h
  · exact hv2 ch h

theorem StExt_add (v : Yaml) (s : St) : StExt s (add_to_pot v s) :=
  ⟨[potEntry v], rfl, by simp⟩

theorem StExt_out (s : St) (o : List String) :
    StExt s ⟨s.pot, o⟩ := ⟨[], by simp⟩

theorem ExceptExt_left {s1 s2 : St} {r : Except St St} (h1 : StExt s1 s2)
    (h2 : ExceptExt s2 r) : ExceptExt s1 r := by
  cases r with
  | ok s3 => exact StExt_trans h1 h2
  | error s3 => exact StExt_trans h1 h2

theorem step_name_ext (label : String) (e : Yaml) (s : St) :
    ExceptExt s (step_name label e s) := by
  cases h : e.pymem "name" with
  | error u => simp only [step_name, h]; exact StExt_refl s
  | ok b =>
    cases b with
    | true =>
      cases h2 : e.pyget "name" with
      | error u => simp only [step_name, h, h2]; exact StExt_refl s
      | ok v => simp only [step_name, h, h2]; exact StExt_add v s
    | false => simp only [step_name, h]; exact StExt_out s _

theorem step_desc_ext (e : Yaml) (s : St) : ExceptExt s (step_desc e s) := by
  cases h : e.pymem "description" with
  | error u => simp only [step_desc, h]; exact StExt_refl s
  | ok b =>
    cases b with
    | true =>
      cases h2 : e.pyget "description" with
      | error u => simp only [step_desc, h, h2]; exact StExt_refl s
      | ok v => simp only [step_desc, h, h2]; exact StExt_add v s
    | false => simp only [step_desc, h]; exact StExt_refl s

theorem handle_option_ext (o : Yaml) (s : St) :
    ExceptExt s (handle_option o s) := by
  cases h : o.pymem "name" with
  | error u => simp only [handle_option, h]; exact StExt_refl s
  | ok b =>
    cases b with
    | true =>
      cases h2 : o.pyget "name" with
      | error u => simp only [handle_option, h, h2]; exact StExt_refl s
      | ok v => simp only [handle_option, h, h2]; exact StExt_add v s
    | false =>
      cases h2 : o.pymem "option" with
      | error u => simp only [handle_option, h, h2]; exact StExt_refl s
      | ok b2 =>
        cases b2 with
        | true => simp only [handle_option, h, h2]; exact StExt_refl s
        | false => simp only [handle_option, h, h2]; exact StExt_out s _

theorem handle_options_ext (os : List Yaml) (s : St) :
    ExceptExt s (handle_options os s) := by
  induction os generalizing s with
  | nil => exact StExt_refl s
  | cons o rest ih =>
    cases h : handle_option o s with
    | error s2 =>
      have := handle_option_ext o s
      rw [h] at this
      simp only [handle_options, h]
      exact this
    | ok s2 =>
      have := handle_option_ext o s
      rw [h] at this
      simp only [handle_options, h]
      exact ExceptExt_left this (ih s2)

theorem step_options_ext (c : Yaml) (s : St) :
    ExceptExt s (step_options c s) := by
  cases h : c.pymem "options" with
  | error u => simp only [step_options, h]; exact StExt_refl s
  | ok b =>
    cases b with
    | false => simp only [step_options, h]; exact StExt_refl s
    | true =>
      cases h2 : c.pyget "options" with
      | error u => simp only [step_options, h, h2]; exact StExt_refl s
      | ok options =>
        cases h3 : options.pyiter with
        | error u => simp only [step_options, h, h2, h3]; exact StExt_refl s
        | ok os =>
          simp only [step_options, h, h2, h3]
          exact handle_options_ext os s

theorem handle_choice_ext (c : Yaml) (s : St) :
    ExceptExt s (handle_choice c s) := by
  cases h : step_name "Invalid choice: " c s with
  | error s1 =>
    have := step_name_ext "Invalid choice: " c s
    rw [h] at this
    simp only [handle_choice, h]
    exact this
  | ok s1 =>
    have h1 := step_name_ext "Invalid choice: " c s
    rw [h] at h1
    simp only [handle_choice, h]
    cases h2 : step_desc c s1 with
    | error s2 =>
      have := step_desc_ext c s1
      rw [h2] at this
      exact StExt_trans h1 this
    | ok s2 =>
      have hd := step_desc_ext c s1
      rw [h2] at hd
      exact ExceptExt_left (StExt_trans h1 hd) (step_options_ext c s2)

theorem handle_choice_list_ext (cs : List Yaml) (s : St) :
    ExceptExt s (handle_choice_list cs s) := by
  induction cs generalizing s with
  | nil => exact StExt_refl s
  | cons c rest ih =>
    cases h : handle_choice c s with
    | error s2 =>
      have := handle_choice_ext c s
      rw [h] at this
      simp only [handle_choice_list, h]
      exact this
    | ok s2 =>
      have := handle_choice_ext c s
      rw [h] at this
      simp only [handle_choice_list, h]
      exact ExceptExt_left this (ih s2)

theorem handle_choices_ext (choices : Yaml) (s : St) :
    ExceptExt s (handle_choices choices s) := by
  cases h : choices.pyiter with
  | error u => simp only [handle_choices, h]; exact StExt_refl s
  | ok cs => simp only [handle_choices, h]; exact handle_choice_list_ext cs s

theorem handle_desktop_entry_ext (d : Yaml) (s : St) :
    ExceptExt s (handle_desktop_entry d s) := by
  cases h : step_name "Invalid desktop: " d s with
  | error s1 =>
    have := step_name_ext "Invalid desktop: " d s
    rw [h] at this
    simp only [handle_desktop_entry, h]
    exact this
  | ok s1 =>
    have h1 := step_name_ext "Invalid desktop: " d s
    rw [h] at h1
    simp only [handle_desktop_entry, h]
    exact ExceptExt_left h1 (step_desc_ext d s1)

theorem handle_desktop_list_ext (ds : List Yaml) (s : St) :
    ExceptExt s (handle_desktop_list ds s) := by
  induction ds generalizing s with
  | nil => exact StExt_refl s
  | cons d rest ih =>
    cases h : handle_desktop_entry d s with
    | error s2 =>
      have := handle_desktop_entry_ext d s
      rw [h] at this
      simp only [handle_desktop_list, h]
      exact this
    | ok s2 =>
      have := handle_desktop_entry_ext d s
      rw [h] at this
      simp only [handle_desktop_list, h]
      exact ExceptExt_left this (ih s2)

theorem handle_desktop_ext (desktops : Yaml) (s : St) :
    ExceptExt s (handle_desktop desktops s) := by
  cases h : desktops.pyiter with
  | error u => simp only [handle_desktop, h]; exact StExt_refl s
  | ok ds => simp only [handle_desktop, h]; exact handle_desktop_list_ext ds s

theorem step_welcome_ext (config : Yaml) (s : St) :
    ExceptExt s (step_welcome config s) := by
  cases h : config.pymem "welcome_page" with
  | error u => simp only [step_welcome, h]; exact StExt_refl s
  | ok b =>
    cases b with
    | false => simp only [step_welcome, h]; exact StExt_refl s
    | true =>
      cases h2 : config.pyget "welcome_page" with
      | error u => simp only [step_welcome, h, h2]; exact StExt_refl s
      | ok wp =>
        cases h3 : wp.pymem "text" with
        | error u => simp only [step_welcome, h, h2, h3]; exact StExt_refl s
        | ok b2 =>
          cases b2 with
          | false => simp only [step_welcome, h, h2, h3]; exact StExt_refl s
          | true =>
            cases h4 : wp.pyget "text" with
            | error u =>
              simp only [step_welcome, h, h2, h3, h4]; exact StExt_refl s
            | ok v =>
              simp only [step_welcome, h, h2, h3, h4]; exact StExt_add v s

theorem step_desktop_ext (config : Yaml) (s : St) :
    ExceptExt s (step_desktop config s) := by
  cases h : config.pymem "desktop" with
  | error u => simp only [step_desktop, h]; exact StExt_refl s
  | ok b =>
    cases b with
    | false => simp only [step_desktop, h]; exact StExt_refl s
    | true =>
      cases h2 : config.pyget "desktop" with
      | error u => simp only [step_desktop, h, h2]; exact StExt_refl s
      | ok v => simp only [step_desktop, h, h2]; exact handle_desktop_ext v s

theorem step_choices_section_ext (key : String) (config : Yaml) (s : St) :
    ExceptExt s (step_choices_section key config s) := by
  cases h : config.pymem key with
  | error u => simp only [step_choices_section, h]; exact StExt_refl s
  | ok b =>
    cases b with
    | false => simp only [step_choices_section, h]; exact StExt_refl s
    | true =>
      cases h2 : config.pyget key with
      | error u => simp only [step_choices_section, h, h2]; exact StExt_refl s
      | ok v => simp only [step_choices_section, h, h2]; exact handle_choices_ext v s

/-- Sequencing of traversal steps: stop at the first exception.  Each
handler's nested matches are definitionally of this shape. -/
def exceptSeq (r : Except St St) (f : St → Except St St) : Except St St :=
  match r with
  | .error s2 => .error s2
  | .ok s2 => f s2

theorem ExceptExt_step {s : St} (r : Except St St) (f : St → Except St St)
    (h1 : ExceptExt s r) (h2 : ∀ t, ExceptExt t (f t)) :
    ExceptExt s (exceptSeq r f) := by
  cases r with
  | error s2 => exact h1
  | ok s2 => exact ExceptExt_left h1 (h2 s2)

theorem handle_config_ext (config : Yaml) (s : St) :
    ExceptExt s (handle_config config s) := by
  show ExceptExt s
    (exceptSeq (step_welcome config s) (fun s1 =>
      exceptSeq (step_desktop config s1) (fun s2 =>
        exceptSeq (step_choices_section "additional_software" config s2)
          (fun s3 => step_choices_section "additional_features" config s3))))
  exact ExceptExt_step _ _ (step_welcome_ext config s) (fun s1 =>
    ExceptExt_step _ _ (step_desktop_ext config s1) (fun s2 =>
      ExceptExt_step _ _
        (step_choices_section_ext "additional_software" config s2)
        (fun s3 => step_choices_section_ext "additional_features" config s3)))

/-!
## Filesystem lemmas
-/

theorem fileAtList_setFileList_self (p : List String) (c : String)
    (l : List (List String × String)) :
    fileAtList p (setFileList p c l) = some c := by
  induction l with
  | nil => simp [setFileList, fileAtList]
  | cons e rest ih =>
    obtain ⟨q, d⟩ := e
    by_cases h : q = p <;> simp [setFileList, fileAtList, h, ih]

theorem fileAtList_setFileList_ne (p : List String) (c : String)
    (q : List String) (h : q ≠ p) (l : List (List String × String)) :
    fileAtList q (setFileList p c l) = fileAtList q l := by
  have hpq : ¬p = q := fun hh => h hh.symm
  induction l with
  | nil => simp [setFileList, fileAtList, hpq]
  | cons e rest ih =>
    obtain ⟨r, d⟩ := e
    by_cases h2 : r = p
    · subst h2
      simp [setFileList, fileAtList, hpq]
    · simp [setFileList, fileAtList, h2, ih]

theorem setFileList_idem (p : List String) (c : String)
    (l : List (List String × String)) :
    setFileList p c (setFileList p c l) = setFileList p c l := by
  induction l with
  | nil => simp [setFileList]
  | cons e rest ih =>
    obtain ⟨q, d⟩ := e
    by_cases h : q = p <;> simp [setFileList, h, ih]

theorem fileAt_setFile_self (fs : FS) (p : List String) (c : String) :
    fileAt (setFile fs p c) p = some c :=
  fileAtList_setFileList_self p c fs.files

theorem fileAt_setFile_ne (fs : FS) (p : List String) (c : String)
    (q : List String) (h : q ≠ p) :
    fileAt (setFile fs p c) q = fileAt fs q :=
  fileAtList_setFileList_ne p c q h fs.files

theorem fileAt_addDir (fs : FS) (d q : List String) :
    fileAt (addDir fs d) q = fileAt fs q := by
  unfold addDir
  split <;> rfl

theorem dirs_setFile (fs : FS) (p : List String) (c : String) :
    (setFile fs p c).dirs = fs.dirs := rfl

theorem mem_addDir (fs : FS) (d : List String) : d ∈ (addDir fs d).dirs := by
  by_cases h : d ∈ fs.dirs
  · simp [addDir, h]
  · simp [addDir, h]

theorem addDir_of_mem (fs : FS) (d : List String) (h : d ∈ fs.dirs) :
    addDir fs d = fs := by
  simp [addDir, h]

/-- A config path is never its own derived pot path (the pot path is one
component longer). -/
theorem path_ne_potPath (l : List String) :
    l ≠ l.dropLast ++ ["po", "config.pot"] := by
  intro h
  have hl := congrArg List.length h
  simp only [List.length_append, List.length_dropLast] at hl
  cases l with
  | nil => simp at hl
  | cons a t => simp at hl

/-!
## Shape of a run
-/

/-- A run that exits 0 read the config file, parsed it, traversed it
without an exception, and produced exactly the success outcome. -/
theorem run_success_shape (parse : String → Option Yaml) (p : String)
    (fs : FS) (h : (run parse [p] fs).exitCode = 0) :
    ∃ content config s2,
      fileAt fs (toPath p) = some content ∧
      parse content = some config ∧
      handle_config config (write_pot_header ⟨[], []⟩) = .ok s2 ∧
      run parse [p] fs =
        ⟨0, s2.out, false,
         some ((toPath p).dropLast ++ ["po", "config.pot"], s2.pot),
         setFile (addDir fs ((toPath p).dropLast ++ ["po"]))
           ((toPath p).dropLast ++ ["po", "config.pot"])
           (concatChunks s2.pot)⟩ := by
  cases hc : fileAt fs (toPath p) with
  | none => rw [run] at h; simp [hc] at h
  | some content =>
    cases hp : parse content with
    | none => rw [run] at h; simp [hc, hp] at h
    | some config =>
      cases hr : handle_config config (write_pot_header ⟨[], []⟩) with
      | error s2 => rw [run] at h; simp [hc, hp, hr] at h
      | ok s2 =>
        refine ⟨content, config, s2, by simp [hc], hp, hr, ?_⟩
        rw [run]
        simp [hc, hp, hr]

/-- An exit code of 0 only arises from a single-argument invocation. -/
theorem run_zero_single (parse : String → Option Yaml) (argv : List String)
    (fs : FS) (h : (run parse argv fs).exitCode = 0) :
    ∃ p, argv = [p] := by
  cases argv with
  | nil =>
    have h2 : (run parse [] fs).exitCode = 2 := rfl
    rw [h2] at h
    omega
  | cons a t =>
    cases t with
    | nil => exact ⟨a, rfl⟩
    | cons b rest =>
      have h2 : (run parse (a :: b :: rest) fs).exitCode = 2 := rfl
      rw [h2] at h
      omega

/-!
## The claims
-/

/-- C1: For every configuration document of the documented shape, template
entries are emitted in exactly this order: the welcome text first (if
present), then each desktop entry's name followed by its description in
sequence order, then each additional_software choice's name, description,
and its option names in nested sequence order, then each
additional_features choice in the same nested structure; no entry is
deduplicated or reordered. -/
theorem C1_entry_order (config : Yaml) (h : wfConfig config = true) (s : St) :
    handle_config config s =
      .ok ⟨s.pot ++ ((specEntries config).map potEntry),
           s.out ++ configDiags config⟩ :=
  handle_config_wf config h s

/-- A configuration document exercising every section. -/
def cfgA : Yaml :=
  .map [("welcome_page", .map [("text", .str "Welcome")]),
        ("desktop", .seq [.map [("name", .str "GNOME"),
                                ("description", .str "A desktop")]]),
        ("additional_software",
         .seq [.map [("name", .str "Extras"),
                     ("description", .str "More"),
                     ("options", .seq [.map [("name", .str "OptA")],
                                       .map [("name", .str "OptB")]])]]),
        ("additional_features", .seq [.map [("name", .str "Feat")]])]

theorem C1_entry_order_witness :
    wfConfig cfgA = true ∧
    handle_config cfgA ⟨[], []⟩ =
      .ok ⟨(specEntries cfgA).map potEntry, configDiags cfgA⟩ :=
  ⟨by decide, by simpa using C1_entry_order cfgA (by decide) ⟨[], []⟩⟩

/-- C3: For every input string, the entry writer emits exactly the two
lines `msgid "<string>"` and `msgstr ""` followed by a blank separator
line, with no escaping of embedded double-quote or newline characters
performed on the string. -/
theorem C3_entry_format (s : String) (st : St) :
    add_to_pot (.str s) st =
      ⟨st.pot ++ ["msgid \"" ++ s ++ "\"\nmsgstr \"\"\n\n"], st.out⟩ := rfl

/-- A desktop entry without a `name` key. -/
def dNoName : Yaml := .map [("description", .str "Desc")]

/-- A choice entry without a `name` key but with a description and
options. -/
def cNoName : Yaml :=
  .map [("description", .str "CD"),
        ("options", .seq [.map [("name", .str "O1")]])]

/-- C4: For every desktop or choice entry (of the documented shape) that
lacks a `name` key, an invalid-desktop (respectively invalid-choice)
advisory is printed to standard output, zero entries are emitted for that
entry's name, the handler returns normally (processing continues, exit
status unaffected), and the entry's description (and, for choices, its
options) are still processed normally if present. -/
theorem C4_missing_name (d c : Yaml) (sd sc : St)
    (hd : d.isMap = true) (hdn : d.find? "name" = none)
    (hc : wfChoice c = true) (hcn : c.find? "name" = none) :
    handle_desktop_entry d sd =
      .ok ⟨sd.pot ++ (((d.find? "description").toList).map potEntry),
           sd.out ++ ["Invalid desktop: " ++ pyFormat d]⟩ ∧
    handle_choice c sc =
      .ok ⟨sc.pot ++
             (((c.find? "description").toList ++ specChoiceOptions c).map
               potEntry),
           sc.out ++ ("Invalid choice: " ++ pyFormat c) ::
             choiceOptionDiags c⟩ := by
  constructor
  · rw [handle_desktop_entry_wf d hd sd]
    simp [specDesktopEntries, nameDiag, hdn]
  · rw [handle_choice_wf c hc sc]
    simp [specChoiceEntries, choiceDiags, nameDiag, hcn]

theorem C4_missing_name_witness :
    dNoName.isMap = true ∧ dNoName.find? "name" = none ∧
    wfChoice cNoName = true ∧ cNoName.find? "name" = none ∧
    (handle_desktop_entry dNoName ⟨[], []⟩ =
       .ok ⟨((dNoName.find? "description").toList).map potEntry,
            ["Invalid desktop: " ++ pyFormat dNoName]⟩ ∧
     handle_choice cNoName ⟨[], []⟩ =
       .ok ⟨(((cNoName.find? "description").toList ++
               specChoiceOptions cNoName).map potEntry),
            ("Invalid choice: " ++ pyFormat cNoName) ::
              choiceOptionDiags cNoName⟩) :=
  ⟨rfl, rfl, rfl, rfl, by
    have h := C4_missing_name dNoName cNoName ⟨[], []⟩ ⟨[], []⟩ rfl rfl rfl rfl
    simpa using h⟩

/-- C5: For every option entry (a mapping) inside a choice's `options`
sequence: a template entry is emitted for its `name` if present; an
invalid-option advisory is printed if and only if neither the `name` key
nor the `option` key is present; an option having `option` but not `name`
produces no entry and no diagnostic. -/
theorem C5_option_cases (o : Yaml) (h : o.isMap = true) (s : St) :
    (∀ v, o.find? "name" = some v →
       handle_option o s = .ok ⟨s.pot ++ [potEntry v], s.out⟩) ∧
    (o.find? "name" = none → o.find? "option" = none →
       handle_option o s =
         .ok ⟨s.pot, s.out ++ ["Invalid option: " ++ pyFormat o]⟩) ∧
    (o.find? "name" = none → (o.find? "option").isSome = true →
       handle_option o s = .ok s) := by
  have hw := handle_option_wf o h s
  refine ⟨?_, ?_, ?_⟩
  · intro v hv
    rw [hw]
    simp [hv, optionDiag]
  · intro h1 h2
    rw [hw]
    simp [h1, h2, optionDiag]
  · intro h1 h2
    obtain ⟨w, hw2⟩ := Option.isSome_iff_exists.mp h2
    rw [hw]
    simp [h1, hw2, optionDiag]

/-- An option with a `name` key. -/
def oName : Yaml := .map [("name", .str "N")]

/-- An option with neither `name` nor `option`. -/
def oNeither : Yaml := .map [("other", .str "x")]

/-- An option with `option` but not `name`. -/
def oOptionOnly : Yaml := .map [("option", .str "x")]

theorem C5_option_cases_witness :
    oName.isMap = true ∧ oNeither.isMap = true ∧ oOptionOnly.isMap = true ∧
    oName.find? "name" = some (.str "N") ∧
    oNeither.find? "name" = none ∧ oNeither.find? "option" = none ∧
    oOptionOnly.find? "name" = none ∧
    (oOptionOnly.find? "option").isSome = true ∧
    handle_option oName ⟨[], []⟩ = .ok ⟨[potEntry (.str "N")], []⟩ ∧
    handle_option oNeither ⟨[], []⟩ =
      .ok ⟨[], ["Invalid option: " ++ pyFormat oNeither]⟩ ∧
    handle_option oOptionOnly ⟨[], []⟩ = .ok ⟨[], []⟩ :=
  ⟨rfl, rfl, rfl, rfl, rfl, rfl, rfl, rfl,
   by simpa using (C5_option_cases oName rfl ⟨[], []⟩).1 (.str "N") rfl,
   by simpa using (C5_option_cases oNeither rfl ⟨[], []⟩).2.1 rfl rfl,
   (C5_option_cases oOptionOnly rfl ⟨[], []⟩).2.2 rfl rfl⟩

/-- C6: If any failure occurs in the open/parse/traverse/write sequence
(file missing or unreadable, parse failure, or a traversal exception), the
program prints the single fixed diagnostic
`Could not find or parse provided config` and terminates with exit code 1,
with no distinction made between failure causes. -/
theorem C6_uniform_failure (parse : String → Option Yaml) (p : String)
    (fs : FS) :
    (fileAt fs (toPath p) = none →
       run parse [p] fs = ⟨1, [potDiag], false, none, fs⟩) ∧
    (∀ content, fileAt fs (toPath p) = some content → parse content = none →
       run parse [p] fs = ⟨1, [potDiag], false, none, fs⟩) ∧
    (∀ content config s2, fileAt fs (toPath p) = some content →
       parse content = some config →
       handle_config config (write_pot_header ⟨[], []⟩) = .error s2 →
       (run parse [p] fs).exitCode = 1 ∧
       (run parse [p] fs).out = s2.out ++ [potDiag]) := by
  refine ⟨?_, ?_, ?_⟩
  · intro hc
    rw [run]
    simp [hc]
  · intro content hc hp
    rw [run]
    simp [hc, hp]
  · intro content config s2 hc hp hr
    rw [run]
    simp [hc, hp, hr]

theorem C6_uniform_failure_witness :
    fileAt ⟨[], []⟩ (toPath "cfg") = none ∧
    run (fun _ => none) ["cfg"] ⟨[], []⟩ =
      ⟨1, [potDiag], false, none, ⟨[], []⟩⟩ :=
  ⟨rfl, (C6_uniform_failure (fun _ => none) "cfg" ⟨[], []⟩).1 rfl⟩

/-- C7 counterexample: with the configuration-path argument omitted, the
process exit status is 2 (argparse rejects the missing required positional
and exits 2), not 1 as the claim states. -/
theorem C7_counterexample :
    (run (fun _ => none) [] ⟨[], []⟩).exitCode = 2 ∧
    (run (fun _ => none) [] ⟨[], []⟩).exitCode ≠ 1 :=
  ⟨rfl, by decide⟩

/-- C7 (amended): if the positional CLI argument is omitted, usage text is
printed and the process terminates with exit code 2, with no output file
written or created and the filesystem unchanged.  (The script's own
`exit(1)` branch for a falsy path is unreachable: argparse rejects the
missing required positional first, exiting with status 2.) -/
theorem C7_missing_arg (parse : String → Option Yaml) (fs : FS) :
    run parse [] fs = ⟨2, [], true, none, fs⟩ := rfl

/-- A parse result that is a plain string: a non-mapping document. -/
def parseStr : String → Option Yaml := fun _ => some (.str "hello")

/-- A parse result that is the null document (empty input file). -/
def parseNull : String → Option Yaml := fun _ => some .null

/-- A one-file filesystem holding the config file `cfg`. -/
def fsOne : FS := ⟨[(["cfg"], "x")], []⟩

/-- C10 counterexample: a document parsing to the non-mapping string value
`hello` does not make the traversal raise: membership on a Python string
is a substring test, so the run succeeds with exit code 0 and a header-only
output, contradicting the claim for general non-mapping documents. -/
theorem C10_counterexample :
    (Yaml.str "hello").isMap = false ∧
    parseStr "x" = some (.str "hello") ∧
    fileAt fsOne (toPath "cfg") = some "x" ∧
    (run parseStr ["cfg"] fsOne).exitCode = 0 ∧
    (run parseStr ["cfg"] fsOne).written =
      some (["po", "config.pot"], [pot_header]) :=
  ⟨rfl, rfl, rfl, rfl, rfl⟩

/-- C10 (amended): if the input parses successfully to a non-iterable
scalar (null — e.g. an empty file — a boolean, or an integer), the
traversal's first membership test raises, the blanket exception handler
fires, and the run ends with the generic fatal diagnostic and exit code 1,
the output file holding only the header.  The original claim's wider scope
— every non-mapping document — is refuted by the counterexample: the
string document `hello` is traversed without raising and the run exits 0. -/
theorem C10_scalar_fatal (parse : String → Option Yaml) (p : String)
    (fs : FS) (content : String) (d : Yaml)
    (hc : fileAt fs (toPath p) = some content)
    (hp : parse content = some d)
    (hd : d = .null ∨ (∃ b, d = .bool b) ∨ (∃ n, d = .int n)) :
    (run parse [p] fs).exitCode = 1 ∧
    (run parse [p] fs).out = [potDiag] ∧
    (run parse [p] fs).written =
      some ((toPath p).dropLast ++ ["po", "config.pot"], [pot_header]) := by
  have hr : handle_config d (write_pot_header ⟨[], []⟩) =
      .error ⟨[pot_header], []⟩ := by
    rcases hd with rfl | ⟨b, rfl⟩ | ⟨n, rfl⟩ <;> rfl
  rw [run]
  simp [hc, hp, hr]

theorem C10_scalar_fatal_witness :
    fileAt fsOne (toPath "cfg") = some "x" ∧
    parseNull "x" = some .null ∧
    ((run parseNull ["cfg"] fsOne).exitCode = 1 ∧
     (run parseNull ["cfg"] fsOne).out = [potDiag] ∧
     (run parseNull ["cfg"] fsOne).written =
       some ((toPath "cfg").dropLast ++ ["po", "config.pot"], [pot_header])) :=
  ⟨rfl, rfl,
   C10_scalar_fatal parseNull "cfg" fsOne "x" .null rfl rfl (Or.inl rfl)⟩

theorem setFile_idem (fs : FS) (p : List String) (c : String) :
    setFile (setFile fs p c) p c = setFile fs p c := by
  simp [setFile, setFileList_idem]

/-- C2: for every document on which the run succeeds, the output file
begins with the exact fixed gettext header block, written exactly once
(as the first chunk) before any entry, regardless of the document's
content. -/
theorem C2_header_first (parse : String → Option Yaml) (argv : List String)
    (fs : FS) (h : (run parse argv fs).exitCode = 0) :
    ∃ path chunks,
      (run parse argv fs).written = some (path, pot_header :: chunks) ∧
      (∀ ch ∈ chunks, ∃ v, ch = potEntry v) ∧
      fileAt (run parse argv fs).fs path =
        some (pot_header ++ concatChunks chunks) := by
  obtain ⟨p, rfl⟩ := run_zero_single parse argv fs h
  obtain ⟨content, config, s2, hc, hp, hr, heq⟩ :=
    run_success_shape parse p fs h
  have hext := handle_config_ext config (write_pot_header ⟨[], []⟩)
  rw [hr] at hext
  obtain ⟨ext, hpot, hvals⟩ := hext
  have hpot2 : s2.pot = pot_header :: ext := hpot
  have hcontent : concatChunks s2.pot = pot_header ++ concatChunks ext := by
    rw [hpot2]
    rfl
  refine ⟨(toPath p).dropLast ++ ["po", "config.pot"], ext, ?_, hvals, ?_⟩
  · rw [heq]
    simp [hpot2]
  · rw [heq]
    have := fileAt_setFile_self (addDir fs ((toPath p).dropLast ++ ["po"]))
      ((toPath p).dropLast ++ ["po", "config.pot"]) (concatChunks s2.pot)
    simp only [RunResult.fs] at *
    rw [this, hcontent]

/-- A parse result holding one desktop entry. -/
def parseB : String → Option Yaml :=
  fun _ => some (.map [("desktop", .seq [.map [("name", .str "G")]])])

/-- A one-file filesystem holding `d/c.yaml`. -/
def fsB : FS := ⟨[(["d", "c.yaml"], "y")], []⟩

theorem C2_header_first_witness :
    (run parseB ["d/c.yaml"] fsB).exitCode = 0 ∧
    (∃ path chunks,
      (run parseB ["d/c.yaml"] fsB).written = some (path, pot_header :: chunks) ∧
      (∀ ch ∈ chunks, ∃ v, ch = potEntry v) ∧
      fileAt (run parseB ["d/c.yaml"] fsB).fs path =
        some (pot_header ++ concatChunks chunks)) :=
  ⟨rfl, C2_header_first parseB ["d/c.yaml"] fsB rfl⟩

/-- C8: every successful run writes its output to the file `config.pot`
inside the subdirectory `po` of the input file's parent directory; the
`po` directory exists afterwards (created if absent) and the file's final
contents are exactly the chunks written by this invocation — it is fully
overwritten, with no remnant of previous contents. -/
theorem C8_output_location (parse : String → Option Yaml) (p : String)
    (fs : FS) (h : (run parse [p] fs).exitCode = 0) :
    ∃ chunks,
      (run parse [p] fs).written =
        some ((toPath p).dropLast ++ ["po", "config.pot"], chunks) ∧
      ((toPath p).dropLast ++ ["po"]) ∈ (run parse [p] fs).fs.dirs ∧
      fileAt (run parse [p] fs).fs
          ((toPath p).dropLast ++ ["po", "config.pot"]) =
        some (concatChunks chunks) := by
  obtain ⟨content, config, s2, hc, hp, hr, heq⟩ :=
    run_success_shape parse p fs h
  refine ⟨s2.pot, ?_, ?_, ?_⟩
  · rw [heq]
  · rw [heq]
    exact mem_addDir fs _
  · rw [heq]
    exact fileAt_setFile_self _ _ _

theorem C8_output_location_witness :
    (run parseB ["d/c.yaml"] fsB).exitCode = 0 ∧
    (∃ chunks,
      (run parseB ["d/c.yaml"] fsB).written =
        some ((toPath "d/c.yaml").dropLast ++ ["po", "config.pot"], chunks) ∧
      ((toPath "d/c.yaml").dropLast ++ ["po"]) ∈
        (run parseB ["d/c.yaml"] fsB).fs.dirs ∧
      fileAt (run parseB ["d/c.yaml"] fsB).fs
          ((toPath "d/c.yaml").dropLast ++ ["po", "config.pot"]) =
        some (concatChunks chunks)) :=
  ⟨rfl, C8_output_location parseB "d/c.yaml" fsB rfl⟩

/-- C9: running the tool twice on an unchanged input produces byte-identical
output files: the whole outcome of the second run (exit code, diagnostics,
written chunks and resulting filesystem) equals that of the first, because
the output is a deterministic function of the parsed document alone and the
header contains no run-varying timestamp. -/
theorem C9_idempotent (parse : String → Option Yaml) (p : String) (fs : FS) :
    run parse [p] ((run parse [p] fs).fs) = run parse [p] fs := by
  cases hc : fileAt fs (toPath p) with
  | none =>
    have h1 : run parse [p] fs = ⟨1, [potDiag], false, none, fs⟩ := by
      rw [run]
      simp [hc]
    rw [h1]
    exact h1
  | some content =>
    cases hp : parse content with
    | none =>
      have h1 : run parse [p] fs = ⟨1, [potDiag], false, none, fs⟩ := by
        rw [run]
        simp [hc, hp]
      rw [h1]
      exact h1
    | some config =>
      have hne : toPath p ≠ (toPath p).dropLast ++ ["po", "config.pot"] :=
        path_ne_potPath _
      cases hr : handle_config config (write_pot_header ⟨[], []⟩) with
      | ok s2 =>
        have h1 : run parse [p] fs =
            ⟨0, s2.out, false,
             some ((toPath p).dropLast ++ ["po", "config.pot"], s2.pot),
             setFile (addDir fs ((toPath p).dropLast ++ ["po"]))
               ((toPath p).dropLast ++ ["po", "config.pot"])
               (concatChunks s2.pot)⟩ := by
          rw [run]
          simp [hc, hp, hr]
        rw [h1]
        have hc2 : fileAt
            (setFile (addDir fs ((toPath p).dropLast ++ ["po"]))
              ((toPath p).dropLast ++ ["po", "config.pot"])
              (concatChunks s2.pot)) (toPath p) = some content := by
          rw [fileAt_setFile_ne _ _ _ _ hne, fileAt_addDir, hc]
        rw [run]
        simp only [hc2, hp, hr]
        simp only [List.append_assoc, List.cons_append, List.nil_append]
        rw [addDir_of_mem _ _ (by rw [dirs_setFile]; exact mem_addDir fs _)]
        rw [setFile_idem]
      | error s2 =>
        have h1 : run parse [p] fs =
            ⟨1, s2.out ++ [potDiag], false,
             some ((toPath p).dropLast ++ ["po", "config.pot"], s2.pot),
             setFile (addDir fs ((toPath p).dropLast ++ ["po"]))
               ((toPath p).dropLast ++ ["po", "config.pot"])
               (concatChunks s2.pot)⟩ := by
          rw [run]
          simp [hc, hp, hr]
        rw [h1]
        have hc2 : fileAt
            (setFile (addDir fs ((toPath p).dropLast ++ ["po"]))
              ((toPath p).dropLast ++ ["po", "config.pot"])
              (concatChunks s2.pot)) (toPath p) = some content := by
          rw [fileAt_setFile_ne _ _ _ _ hne, fileAt_addDir, hc]
        rw [run]
        simp only [hc2, hp, hr]
        simp only [List.append_assoc, List.cons_append, List.nil_append]
        rw [addDir_of_mem _ _ (by rw [dirs_setFile]; exact mem_addDir fs _)]
        rw [setFile_idem]
